import Mathlib

/-!
# Verification of the crypto tool wrappers (`src/tools/crypto/api.ts`, `src/tools/crypto/defi.ts`)

Shallow embedding of the API-client layer and the tool wrappers of the
repository.  JavaScript numbers are modelled as `ℚ`, possibly-missing
(`undefined`) values as `Option`, and reshaping steps that can throw
(`new Date(NaN).toISOString()`, reading a field of `undefined`) as `Except`.
Upstream JSON payloads are modelled by structures whose fields are all
optional, exactly as the code accesses them (`?.` chains).
-/

namespace Dexter

/-! ## JavaScript numbers

The numeric values flowing through these tools (TVLs, percentages, APYs,
timestamps) are JS numbers.  We model them as exact fractions with a
positive denominator, kept unreduced so that every operation is a plain
integer computation the kernel can evaluate.  The only operations the code
performs are comparison, `+ - * /`, `toFixed`, and truncation to an
integer; division is only ever reached under a strictly-positive-divisor
guard in the source, so the divisor-zero case (JS `Infinity`) is given a
dummy value that no reachable code path observes. -/

structure JsNum where
  num : ℤ
  den : ℕ
  den_pos : 0 < den

namespace JsNum

protected def le (a b : JsNum) : Prop := a.num * (b.den : ℤ) ≤ b.num * (a.den : ℤ)

protected def lt (a b : JsNum) : Prop := a.num * (b.den : ℤ) < b.num * (a.den : ℤ)

instance : LE JsNum := ⟨JsNum.le⟩
instance : LT JsNum := ⟨JsNum.lt⟩

instance : DecidableEq JsNum := fun a b =>
  if h1 : a.num = b.num then
    if h2 : a.den = b.den then
      isTrue (by cases a; cases b; simp_all)
    else isFalse (by cases a; cases b; simp_all)
  else isFalse (by cases a; cases b; simp_all)

instance decLe (a b : JsNum) : Decidable (a ≤ b) :=
  show Decidable (a.num * (b.den : ℤ) ≤ b.num * (a.den : ℤ)) from inferInstance

instance decLt (a b : JsNum) : Decidable (a < b) :=
  show Decidable (a.num * (b.den : ℤ) < b.num * (a.den : ℤ)) from inferInstance

instance : OfNat JsNum n := ⟨⟨n, 1, Nat.one_pos⟩⟩

/-- A decimal literal `n / d` (e.g. `dec 543189 10000` is the JS literal
`54.3189`). -/
def dec (n : ℤ) (d : ℕ) : JsNum :=
  ⟨n, max d 1, Nat.lt_of_lt_of_le Nat.one_pos (Nat.le_max_right d 1)⟩

protected def add (a b : JsNum) : JsNum :=
  ⟨a.num * b.den + b.num * a.den, a.den * b.den, Nat.mul_pos a.den_pos b.den_pos⟩

protected def sub (a b : JsNum) : JsNum :=
  ⟨a.num * b.den - b.num * a.den, a.den * b.den, Nat.mul_pos a.den_pos b.den_pos⟩

protected def mul (a b : JsNum) : JsNum :=
  ⟨a.num * b.num, a.den * b.den, Nat.mul_pos a.den_pos b.den_pos⟩

/-- Division; the divisor is nonzero on every reachable code path (the
source guards each division with a `> 0` check). -/
protected def div (a b : JsNum) : JsNum :=
  if h : b.num.natAbs = 0 then ⟨0, 1, Nat.one_pos⟩
  else ⟨b.num.sign * a.num * b.den, a.den * b.num.natAbs,
        Nat.mul_pos a.den_pos (Nat.pos_of_ne_zero h)⟩

instance : Add JsNum := ⟨JsNum.add⟩
instance : Sub JsNum := ⟨JsNum.sub⟩
instance : Mul JsNum := ⟨JsNum.mul⟩
instance : Div JsNum := ⟨JsNum.div⟩

/-- JS loose/strict equality of two numbers (value equality). -/
protected def beq (a b : JsNum) : Bool := a.num * (b.den : ℤ) == b.num * (a.den : ℤ)

instance : BEq JsNum := ⟨JsNum.beq⟩

/-- Truncation towards zero, as JS `ToIntegerOrInfinity` does for a finite
number (used by the `Date` constructor). -/
def trunc (a : JsNum) : ℤ := a.num.tdiv (a.den : ℤ)

theorem le_total' (a b : JsNum) : a ≤ b ∨ b ≤ a := Int.le_total _ _

theorem le_trans' {a b c : JsNum} (h1 : a ≤ b) (h2 : b ≤ c) : a ≤ c := by
  have ha : (0 : ℤ) < a.den := by exact_mod_cast a.den_pos
  have hb : (0 : ℤ) < b.den := by exact_mod_cast b.den_pos
  have hc : (0 : ℤ) < c.den := by exact_mod_cast c.den_pos
  have h1' : a.num * b.den * c.den ≤ b.num * a.den * c.den :=
    mul_le_mul_of_nonneg_right h1 hc.le
  have h2' : b.num * c.den * a.den ≤ c.num * b.den * a.den :=
    mul_le_mul_of_nonneg_right h2 ha.le
  have key : a.num * c.den * b.den ≤ c.num * a.den * b.den := by nlinarith
  exact le_of_mul_le_mul_right key hb

end JsNum

/-! ## JavaScript primitives used by the code -/

/-- `Number.prototype.toFixed(2)` for a finite number: sign, then the
integer `m` minimising `|m/100 - |q||` (ties towards the larger `m`),
rendered with exactly two fraction digits.  For `q = n/d` (with `d > 0`),
`m = ⌊(200·|n| + d) / (2·d)⌋`. -/
def toFixed2 (q : JsNum) : String :=
  let m : ℕ := (200 * q.num.natAbs + q.den) / (2 * q.den)
  (if q.num < 0 then "-" else "") ++ toString (m / 100) ++ "." ++
    ((if m % 100 < 10 then "0" else "") ++ toString (m % 100))

/-- `x?.toFixed(2) + '%'` — the ubiquitous percentage-rendering idiom of
`defi.ts`: a missing value concatenates as the string `"undefined"`. -/
def pctStr (o : Option JsNum) : String :=
  (match o with
   | some q => toFixed2 q
   | none => "undefined") ++ "%"

/-- The property "this string ends in `'%'`". -/
def endsPercent (s : String) : Prop := s.data.getLast? = some '%'

/-- The string consists of exactly two decimal digits. -/
def twoDigitsCheck (s : String) : Bool :=
  match s.data with
  | [a, b] => a.isDigit && b.isDigit
  | _ => false

/-- JS truthiness of an optional string (`undefined` and `""` are falsy). -/
def truthyStr (o : Option String) : Bool := !(o.getD "" == "")

/-- JS truthiness of an optional number (`undefined` and `0` are falsy). -/
def truthyNum (o : Option JsNum) : Bool := !(o.getD 0 == 0)

/-- `a.includes(b)` on strings. -/
def jsIncludes (s sub : String) : Bool := decide (List.IsInfix sub.data s.data)

/-- `arr.slice(-n)`: the last `n` elements. -/
def jsSliceLast (n : ℕ) (l : List α) : List α := l.drop (l.length - n)

/-- The value of a leading run of decimal digits, `none` when there is none
(JS `parseInt` yields `NaN` then). -/
def digitsVal (cs : List Char) : Option ℕ :=
  let ds := cs.takeWhile Char.isDigit
  if ds.isEmpty then none
  else some (ds.foldl (fun acc c => acc * 10 + (c.toNat - 48)) 0)

/-- `parseInt(s)` (radix 10, no whitespace handling): optional sign followed
by leading digits; `none` models `NaN`. -/
def parseIntStr (s : String) : Option ℤ :=
  match s.data with
  | '-' :: rest => (digitsVal rest).map (fun n => -(n : ℤ))
  | '+' :: rest => (digitsVal rest).map (fun n => (n : ℤ))
  | cs => (digitsVal cs).map (fun n => (n : ℤ))

/-- `parseInt` applied to a possibly-`undefined` string
(`parseInt(undefined)` is `NaN`, modelled as `none`). -/
def parseIntOpt (o : Option String) : Option ℤ := o.bind parseIntStr

/-- Zero-pad a numeral to width `w`. -/
def padZ (w : ℕ) (n : ℕ) : String :=
  let s := toString n
  String.mk (List.replicate (w - s.length) '0') ++ s

/-- `new Date(ms).toISOString()` for an in-range integral time value:
proleptic-Gregorian civil date from days (Hinnant's algorithm) plus the
time of day, formatted `YYYY-MM-DDTHH:mm:ss.sssZ`. -/
def isoOfMs (ms : ℤ) : String :=
  let day : ℤ := ms.ediv 86400000
  let tod : ℕ := (ms.emod 86400000).toNat
  let z : ℤ := day + 719468
  let era : ℤ := z.ediv 146097
  let doe : ℕ := (z - era * 146097).toNat
  let yoe : ℕ := (doe - doe / 1460 + doe / 36524 - doe / 146096) / 365
  let y0 : ℤ := (yoe : ℤ) + era * 400
  let doy : ℕ := doe - (365 * yoe + yoe / 4 - yoe / 100)
  let mp : ℕ := (5 * doy + 2) / 153
  let d : ℕ := doy - (153 * mp + 2) / 5 + 1
  let m : ℕ := if mp < 10 then mp + 3 else mp - 9
  let y : ℤ := y0 + (if m ≤ 2 then 1 else 0)
  let yearStr :=
    if 0 ≤ y ∧ y ≤ 9999 then padZ 4 y.toNat
    else (if y < 0 then "-" else "+") ++ padZ 6 y.natAbs
  yearStr ++ "-" ++ padZ 2 m ++ "-" ++ padZ 2 d ++ "T" ++
    padZ 2 (tod / 3600000) ++ ":" ++ padZ 2 (tod / 60000 % 60) ++ ":" ++
    padZ 2 (tod / 1000 % 60) ++ "." ++ padZ 3 (tod % 1000) ++ "Z"

/-- `new Date(t).toISOString()` on a possibly-`NaN` time value: throws a
`RangeError` on `NaN` (`none`) or an out-of-range time value. -/
def toISOStringE (t : Option ℤ) : Except String String :=
  match t with
  | none => .error "Invalid time value"
  | some ms =>
      if ms.natAbs ≤ 8640000000000000 then .ok (isoOfMs ms)
      else .error "Invalid time value"

/-- `s.split('T')[0]`. -/
def splitDatePart (s : String) : String :=
  String.mk (s.data.takeWhile (fun c => c ≠ 'T'))

/-- Left-to-right effectful map: `arr.map(f)` where the body of `f` may
throw — the first throw aborts the whole surrounding tool call. -/
def mapE (f : α → Except ε β) : List α → Except ε (List β)
  | [] => .ok []
  | a :: l => do
      let b ← f a
      let bl ← mapE f l
      .ok (b :: bl)

/-! ## The fetch layer (`api.ts`, `fetchJson`) -/

/-- The raw HTTP response as the code observes it: status, status text and
the already-parsed JSON body. -/
structure HttpResponse (α : Type) where
  status : ℕ
  statusText : String
  body : α

/-- `response.ok`: status in the inclusive range 200–299. -/
def responseOk (status : ℕ) : Bool := decide (200 ≤ status ∧ status ≤ 299)

/-- The envelope returned by every API-client function. -/
structure ApiResponse (α : Type) where
  data : α
  url : String

/-- The message thrown on HTTP 429. -/
def rateLimitMsg : String := "Rate limited by API. Please wait a moment and try again."

/-- The message thrown for any other non-2xx status. -/
def upstreamMsg (status : ℕ) (statusText : String) : String :=
  "API request failed: " ++ toString status ++ " " ++ statusText

/-- `fetchJson` of `api.ts`: 2xx returns `{ data, url }`; 429 throws the
rate-limit message; every other non-2xx throws the generic message. -/
def fetchJson (r : HttpResponse α) (url : String) : Except String (ApiResponse α) :=
  if responseOk r.status then .ok ⟨r.body, url⟩
  else if r.status = 429 then .error rateLimitMsg
  else .error (upstreamMsg r.status r.statusText)

/-! ## URL construction (`api.ts`) -/

/-- Characters `encodeURIComponent` leaves untouched:
`A–Z a–z 0–9 - _ . ! ~ * ' ( )`. -/
def uriUnreserved (c : Char) : Bool :=
  c.isAlphanum ||
    c ∈ ['-', '_', '.', '!', '~', '*', Char.ofNat 39, '(', ')']

/-- UTF-8 bytes of a character, as naturals. -/
def utf8Bytes (c : Char) : List ℕ :=
  let n := c.toNat
  if n < 128 then [n]
  else if n < 2048 then [192 + n / 64, 128 + n % 64]
  else if n < 65536 then [224 + n / 4096, 128 + n / 64 % 64, 128 + n % 64]
  else [240 + n / 262144, 128 + n / 4096 % 64, 128 + n / 64 % 64, 128 + n % 64]

/-- Upper-case hexadecimal digit. -/
def hexDigit (k : ℕ) : Char :=
  if k < 10 then Char.ofNat (48 + k) else Char.ofNat (55 + k)

/-- The characters a single input character contributes to
`encodeURIComponent`'s output. -/
def encChar (c : Char) : List Char :=
  if uriUnreserved c then [c]
  else (utf8Bytes c).flatMap (fun b => ['%', hexDigit (b / 16), hexDigit (b % 16)])

/-- JS `encodeURIComponent`. -/
def encodeURIComponent (s : String) : String :=
  String.mk (s.data.flatMap encChar)

/-- Characters the `URLSearchParams`/`application/x-www-form-urlencoded`
serializer leaves untouched: `A–Z a–z 0–9 * - . _`. -/
def formUnreserved (c : Char) : Bool :=
  c.isAlphanum || c ∈ ['*', '-', '.', '_']

/-- One character of form-urlencoding: space becomes `+`, unreserved
characters stay, everything else is percent-encoded. -/
def formEncChar (c : Char) : List Char :=
  if c = ' ' then ['+']
  else if formUnreserved c then [c]
  else (utf8Bytes c).flatMap (fun b => ['%', hexDigit (b / 16), hexDigit (b % 16)])

/-- Form-urlencode a single value. -/
def formEncode (s : String) : String := String.mk (s.data.flatMap formEncChar)

/-- `new URLSearchParams({...}).toString()`: `k=v` pairs joined by `&`,
keys and values form-urlencoded. -/
def urlSearchParams (kvs : List (String × String)) : String :=
  String.intercalate "&" (kvs.map (fun kv => formEncode kv.1 ++ "=" ++ formEncode kv.2))

/-- JS `String(b)` for a boolean. -/
def jsBoolStr (b : Bool) : String := if b then "true" else "false"

def COINGECKO_BASE : String := "https://api.coingecko.com/api/v3"
def DEFILLAMA_BASE : String := "https://api.llama.fi"

/-- Base URL of the Fear & Greed provider (hard-coded in `getFearGreedIndex`). -/
def ALTERNATIVE_BASE : String := "https://api.alternative.me"

/-- Base URL of the stablecoin endpoint (hard-coded in `getStablecoins`). -/
def STABLECOINS_BASE : String := "https://stablecoins.llama.fi"

namespace Api

def searchTokens_url (query : String) : String :=
  COINGECKO_BASE ++ "/search?query=" ++ encodeURIComponent query

def getTokenInfo_url (id : String)
    (localization tickers market_data community_data developer_data : Bool) : String :=
  COINGECKO_BASE ++ "/coins/" ++ encodeURIComponent id ++ "?" ++
    urlSearchParams
      [("localization", jsBoolStr localization), ("tickers", jsBoolStr tickers),
       ("market_data", jsBoolStr market_data), ("community_data", jsBoolStr community_data),
       ("developer_data", jsBoolStr developer_data)]

def getTokenPrice_url (ids : List String) (vsCurrencies : List String)
    (mcap vol change : Bool) : String :=
  COINGECKO_BASE ++ "/simple/price?" ++
    urlSearchParams
      [("ids", String.intercalate "," ids), ("vs_currencies", String.intercalate "," vsCurrencies),
       ("include_market_cap", jsBoolStr mcap), ("include_24hr_vol", jsBoolStr vol),
       ("include_24hr_change", jsBoolStr change)]

def getTokenOHLC_url (id : String) (vsCurrency : String) (days : ℤ) : String :=
  COINGECKO_BASE ++ "/coins/" ++ encodeURIComponent id ++ "/ohlc?vs_currency=" ++
    vsCurrency ++ "&days=" ++ toString days

def getTokenMarketChart_url (id : String) (vsCurrency : String) (days : String) : String :=
  COINGECKO_BASE ++ "/coins/" ++ encodeURIComponent id ++ "/market_chart?vs_currency=" ++
    vsCurrency ++ "&days=" ++ days

def getTrendingTokens_url : String := COINGECKO_BASE ++ "/search/trending"

def getGlobalMarketData_url : String := COINGECKO_BASE ++ "/global"

def getTopCoins_url (vsCurrency : String) (perPage page : ℕ) (order : String) : String :=
  COINGECKO_BASE ++ "/coins/markets?" ++
    urlSearchParams
      [("vs_currency", vsCurrency), ("order", order), ("per_page", toString perPage),
       ("page", toString page), ("sparkline", "false"),
       ("price_change_percentage", "1h,24h,7d,30d")]

def getCategories_url : String := COINGECKO_BASE ++ "/coins/categories"

def getCategoryCoins_url (categoryId vsCurrency : String) : String :=
  COINGECKO_BASE ++ "/coins/markets?" ++
    urlSearchParams
      [("vs_currency", vsCurrency), ("category", categoryId), ("order", "market_cap_desc"),
       ("per_page", "50"), ("page", "1"), ("sparkline", "false")]

def getExchanges_url (perPage : ℕ) : String :=
  COINGECKO_BASE ++ "/exchanges?per_page=" ++ toString perPage

def getFearGreedIndex_url : String := "https://api.alternative.me/fng/?limit=10"

def getDefiProtocols_url : String := DEFILLAMA_BASE ++ "/protocols"

def getProtocolTVL_url (protocol : String) : String :=
  DEFILLAMA_BASE ++ "/protocol/" ++ encodeURIComponent protocol

def getChainsTVL_url : String := DEFILLAMA_BASE ++ "/v2/chains"

def getChainTVLHistory_url (chain : String) : String :=
  DEFILLAMA_BASE ++ "/v2/historicalChainTvl/" ++ encodeURIComponent chain

def getYieldPools_url : String := DEFILLAMA_BASE ++ "/pools"

def getStablecoins_url : String := "https://stablecoins.llama.fi/stablecoins?includePrices=true"

def getDexVolumes_url : String := DEFILLAMA_BASE ++ "/overview/dexs"

end Api

instance [DecidableEq ε] [DecidableEq α] : DecidableEq (Except ε α) := fun a b =>
  match a, b with
  | .ok x, .ok y => if h : x = y then isTrue (by rw [h]) else isFalse (by simp [h])
  | .ok _, .error _ => isFalse (by simp)
  | .error _, .ok _ => isFalse (by simp)
  | .error e, .error f => if h : e = f then isTrue (by rw [h]) else isFalse (by simp [h])

/-! ## Tool results -/

/-- Modelled from the spec: `formatToolResult` is defined in
`src/tools/types.ts`, which is not among these sources; per the spec (§3, §6)
a tool result pairs the reshaped payload with the array of source URLs used
to produce it. -/
structure ToolResult (α : Type) where
  result : α
  urls : List String
deriving DecidableEq

/-- Modelled from the spec: the tool-result constructor every wrapper calls. -/
def formatToolResult (a : α) (urls : List String) : ToolResult α := ⟨a, urls⟩

/-! ## Sorting (`Array.prototype.sort` with a descending numeric comparator)

Every sorting tool sorts with a comparator `(a, b) => (b.key || 0) - (a.key || 0)`,
i.e. descending by `key` with missing keys read as `0`; the result is some
stable ordering that is sorted for that comparator, which we model with
insertion sort. -/

/-- `r a b` holds when `a` may precede `b` in the descending-by-`key`
order (missing keys count as `0`). -/
def keyGE (key : α → Option JsNum) (a b : α) : Prop :=
  (key b).getD 0 ≤ (key a).getD 0

instance (key : α → Option JsNum) : DecidableRel (keyGE key) :=
  fun _ _ => JsNum.decLe _ _

instance (key : α → Option JsNum) : IsTotal α (keyGE key) :=
  ⟨fun a b => (JsNum.le_total' ((key b).getD 0) ((key a).getD 0)).elim Or.inl Or.inr⟩

instance (key : α → Option JsNum) : IsTrans α (keyGE key) :=
  ⟨fun _ _ _ h1 h2 => JsNum.le_trans' h2 h1⟩

/-- `.sort((a, b) => (b.key || 0) - (a.key || 0))`. -/
def sortByKeyDesc (key : α → Option JsNum) (l : List α) : List α :=
  l.insertionSort (keyGE key)

/-! ## `get_top_defi_protocols` (`defi.ts`) -/

structure RawProtocol where
  name : Option String
  symbol : Option String
  tvl : Option JsNum
  change_1d : Option JsNum
  change_7d : Option JsNum
  change_1m : Option JsNum
  category : Option String
  chain : Option String
  chains : Option (List String)
  slug : Option String
deriving DecidableEq

structure TopDefiInput where
  limit : ℕ
  chain : Option String
  category : Option String
deriving DecidableEq

/-- `p.chain?.toLowerCase() === chainLower || p.chains?.some(c => c.toLowerCase() === chainLower)`. -/
def chainMatches (chainLower : String) (p : RawProtocol) : Bool :=
  (p.chain.map String.toLower == some chainLower) ||
    (p.chains.getD []).any (fun c => c.toLower == chainLower)

/-- `p.category?.toLowerCase().includes(catLower)` (`undefined` is falsy). -/
def categoryMatches (catLower : String) (p : RawProtocol) : Bool :=
  match p.category with
  | some c => jsIncludes c.toLower catLower
  | none => false

/-- The two optional filters of `get_top_defi_protocols` (a JS `if (input.x)`
skips the filter for `undefined` and for the empty string). -/
def topDefiFiltered (input : TopDefiInput) (data : List RawProtocol) : List RawProtocol :=
  let ps :=
    if truthyStr input.chain then
      data.filter (chainMatches ((input.chain.getD "").toLower))
    else data
  if truthyStr input.category then
    ps.filter (categoryMatches ((input.category.getD "").toLower))
  else ps

/-- Filter, sort by TVL descending, take the top `limit`. -/
def topDefiSelected (input : TopDefiInput) (data : List RawProtocol) : List RawProtocol :=
  (sortByKeyDesc RawProtocol.tvl (topDefiFiltered input data)).take input.limit

structure TopDefiEntry where
  name : Option String
  symbol : Option String
  tvl : Option JsNum
  tvl_change_1d : String
  tvl_change_7d : String
  tvl_change_1m : String
  category : Option String
  chains : Option (List String)
  slug : Option String
deriving DecidableEq

def mkTopDefiEntry (p : RawProtocol) : TopDefiEntry :=
  ⟨p.name, p.symbol, p.tvl, pctStr p.change_1d, pctStr p.change_7d, pctStr p.change_1m,
   p.category, p.chains.map (List.take 5), p.slug⟩

structure TopDefiResult where
  protocols : List TopDefiEntry
  count : ℕ
deriving DecidableEq

def getTopDefiProtocols (input : TopDefiInput) (data : List RawProtocol) :
    ToolResult TopDefiResult :=
  let result := (topDefiSelected input data).map mkTopDefiEntry
  formatToolResult ⟨result, result.length⟩ [Api.getDefiProtocols_url]

/-! ## `get_chain_tvl_data` (`defi.ts`) -/

structure RawChain where
  name : Option String
  tvl : Option JsNum
  tokenSymbol : Option String
  gecko_id : Option String
deriving DecidableEq

structure ChainEntry where
  name : Option String
  tvl : Option JsNum
  token_symbol : Option String
  gecko_id : Option String
deriving DecidableEq

def mkChainEntry (c : RawChain) : ChainEntry := ⟨c.name, c.tvl, c.tokenSymbol, c.gecko_id⟩

structure ChainsResult where
  chains : Option (List ChainEntry)
  count : ℕ
deriving DecidableEq

/-- `(data as any[])?.sort(...desc tvl...).slice(0, 30).map(...)`, with
`count: chains?.length || 0`. -/
def getChainTVLData (data : Option (List RawChain)) : ToolResult ChainsResult :=
  let chains := data.map (fun l => ((sortByKeyDesc RawChain.tvl l).take 30).map mkChainEntry)
  formatToolResult ⟨chains, (chains.map List.length).getD 0⟩ [Api.getChainsTVL_url]

/-! ## `get_chain_tvl_trend` (`defi.ts`) -/

structure ChainTvlPoint where
  date : Option JsNum
  tvl : Option JsNum
deriving DecidableEq

structure HistEntry where
  date : String
  tvl : Option JsNum
deriving DecidableEq

/-- One point of the mapped history:
`{ date: new Date(point.date * 1000).toISOString().split('T')[0], tvl: point.tvl }` —
this throws when `point.date` is missing (`new Date(NaN)`). -/
def mkHistEntry (pt : ChainTvlPoint) : Except String HistEntry := do
  let iso ← toISOStringE (pt.date.map (fun d => (d * 1000).trunc))
  pure ⟨splitDatePart iso, pt.tvl⟩

/-- `(data as any[])?.slice(-90).map(...) || []`. -/
def chainTrendHistory (data : Option (List ChainTvlPoint)) : Except String (List HistEntry) :=
  mapE mkHistEntry (jsSliceLast 90 (data.getD []))

/-- The `first` baseline the tool divides by: `history[0]?.tvl || 0`. -/
def chainTrendBaseline (data : Option (List ChainTvlPoint)) : Option JsNum :=
  ((jsSliceLast 90 (data.getD [])).head?).bind ChainTvlPoint.tvl

structure ChainTrendResult where
  chain : String
  current_tvl : JsNum
  tvl_90d_ago : JsNum
  change_90d : String
  history : List HistEntry
deriving DecidableEq

def getChainTVLTrend (chain : String) (data : Option (List ChainTvlPoint)) :
    Except String (ToolResult ChainTrendResult) := do
  let history ← chainTrendHistory data
  let first := (history.head?.bind HistEntry.tvl).getD 0
  let lastV := (history.getLast?.bind HistEntry.tvl).getD 0
  let change :=
    if (0 : JsNum) < first then toFixed2 ((lastV - first) / first * 100) ++ "%" else "N/A"
  pure (formatToolResult ⟨chain, lastV, first, change, history⟩
    [Api.getChainTVLHistory_url chain])

/-! ## `get_defi_yields` (`defi.ts`) -/

structure RawPool where
  pool : Option String
  symbol : Option String
  project : Option String
  chain : Option String
  tvlUsd : Option JsNum
  apy : Option JsNum
  apyBase : Option JsNum
  apyReward : Option JsNum
  stablecoin : Option Bool
  ilRisk : Option String
deriving DecidableEq

structure YieldsInput where
  chain : Option String
  project : Option String
  min_tvl : Option JsNum
  stablecoin_only : Bool
  limit : ℕ
deriving DecidableEq

structure YieldsResp where
  data : Option (List RawPool)
deriving DecidableEq

/-- `p.tvlUsd >= input.min_tvl` (`undefined >= x` is false). -/
def tvlAtLeast (m : JsNum) (p : RawPool) : Bool :=
  match p.tvlUsd with
  | some t => decide (m ≤ t)
  | none => false

/-- The four optional filters of `get_defi_yields` (JS truthiness guards:
`""` skips the text filters, `0` skips the TVL filter). -/
def yieldsFiltered (input : YieldsInput) (pools : List RawPool) : List RawPool :=
  let ps :=
    if truthyStr input.chain then
      pools.filter (fun p => p.chain.map String.toLower == some ((input.chain.getD "").toLower))
    else pools
  let ps :=
    if truthyStr input.project then
      ps.filter (fun p =>
        match p.project with
        | some pr => jsIncludes pr.toLower ((input.project.getD "").toLower)
        | none => false)
    else ps
  let ps :=
    if truthyNum input.min_tvl then ps.filter (tvlAtLeast (input.min_tvl.getD 0)) else ps
  if input.stablecoin_only then ps.filter (fun p => p.stablecoin == some true) else ps

/-- Filter, sort by APY descending, take the top `limit`. -/
def yieldsSelected (input : YieldsInput) (resp : YieldsResp) : List RawPool :=
  (sortByKeyDesc RawPool.apy (yieldsFiltered input (resp.data.getD []))).take input.limit

structure YieldEntry where
  pool : Option String
  symbol : Option String
  project : Option String
  chain : Option String
  tvl_usd : Option JsNum
  apy : String
  apy_base : String
  apy_reward : String
  stablecoin : Option Bool
  il_risk : Option String
deriving DecidableEq

def mkYieldEntry (p : RawPool) : YieldEntry :=
  ⟨p.pool, p.symbol, p.project, p.chain, p.tvlUsd, pctStr p.apy, pctStr p.apyBase,
   pctStr p.apyReward, p.stablecoin, p.ilRisk⟩

structure YieldsResult where
  pools : List YieldEntry
  count : ℕ
deriving DecidableEq

def getDefiYields (input : YieldsInput) (resp : YieldsResp) : ToolResult YieldsResult :=
  let result := (yieldsSelected input resp).map mkYieldEntry
  formatToolResult ⟨result, result.length⟩ [Api.getYieldPools_url]

/-! ## `compare_defi_protocols` (`defi.ts`) -/

structure TvlPoint where
  date : Option JsNum
  totalLiquidityUSD : Option JsNum
deriving DecidableEq

structure ProtocolDetail where
  name : Option String
  symbol : Option String
  category : Option String
  chains : Option (List String)
  tvl : Option (List TvlPoint)
deriving DecidableEq

/-- The per-protocol record built inside the `Promise.all` fan-out; the
`catch` branch yields `{ name: protocol, error: 'Failed to fetch data' }`. -/
structure CompareEntryMid where
  name : Option String
  symbol : Option String
  category : Option String
  chains : Option ℕ
  current_tvl : Option JsNum
  tvl_30d_ago : Option JsNum
  error : Option String
deriving DecidableEq

/-- One fetch of the fan-out: a failed fetch (modelled by the oracle
returning `none`) degrades to the error-marked record. -/
def compareStep (fetch : String → Option ProtocolDetail) (protocol : String) :
    CompareEntryMid :=
  match fetch protocol with
  | some d =>
      ⟨d.name, d.symbol, d.category, some ((d.chains.map List.length).getD 0),
       some (((d.tvl.bind List.getLast?).bind TvlPoint.totalLiquidityUSD).getD 0),
       some (((d.tvl.bind (fun l => l.get? (l.length - 30))).bind
         TvlPoint.totalLiquidityUSD).getD 0),
       none⟩
  | none => ⟨some protocol, none, none, none, none, none, some "Failed to fetch data"⟩

structure CompareEntry where
  name : Option String
  symbol : Option String
  category : Option String
  chains : Option ℕ
  current_tvl : Option JsNum
  tvl_30d_ago : Option JsNum
  error : Option String
  tvl_change_30d : String
deriving DecidableEq

/-- The post-fan-out map adding `tvl_change_30d` (`r.tvl_30d_ago > 0` is
false for the error records, whose `tvl_30d_ago` is `undefined`). -/
def addChange (r : CompareEntryMid) : CompareEntry :=
  ⟨r.name, r.symbol, r.category, r.chains, r.current_tvl, r.tvl_30d_ago, r.error,
   if (0 : JsNum) < r.tvl_30d_ago.getD 0 then
     toFixed2 ((r.current_tvl.getD 0 - r.tvl_30d_ago.getD 0) / r.tvl_30d_ago.getD 0 * 100) ++ "%"
   else "N/A"⟩

structure CompareResult where
  comparison : List CompareEntry
deriving DecidableEq

/-- `input.protocols.slice(0, 5)` bounds the fan-out to 5 fetches. -/
def compareFetched (protocols : List String) : List String := protocols.take 5

def compareDefiProtocols (fetch : String → Option ProtocolDetail)
    (protocols : List String) : ToolResult CompareResult :=
  let results := (compareFetched protocols).map (compareStep fetch)
  formatToolResult ⟨results.map addChange⟩ ["https://api.llama.fi"]

/-! ## `get_trending_crypto` (`defi.ts`, market tools section) -/

structure TrendingInner where
  id : Option String
  name : Option String
  symbol : Option String
  market_cap_rank : Option JsNum
  price_btc : Option JsNum
  score : Option JsNum
deriving DecidableEq

structure TrendingItem where
  item : Option TrendingInner
deriving DecidableEq

structure TrendingResp where
  coins : Option (List TrendingItem)
deriving DecidableEq

structure TrendingEntry where
  id : Option String
  name : Option String
  symbol : Option String
  market_cap_rank : Option JsNum
  price_btc : Option JsNum
  score : Option JsNum
deriving DecidableEq

def mkTrendingEntry (it : TrendingItem) : TrendingEntry :=
  ⟨it.item.bind TrendingInner.id, it.item.bind TrendingInner.name,
   (it.item.bind TrendingInner.symbol).map String.toUpper,
   it.item.bind TrendingInner.market_cap_rank, it.item.bind TrendingInner.price_btc,
   it.item.bind TrendingInner.score⟩

structure TrendingResult where
  trending_coins : List TrendingEntry
deriving DecidableEq

/-- `(data as any).coins?.map(...) || []` — every upstream coin is mapped;
there is no slicing. -/
def getTrendingCrypto (resp : TrendingResp) : ToolResult TrendingResult :=
  formatToolResult ⟨(resp.coins.getD []).map mkTrendingEntry⟩ [Api.getTrendingTokens_url]

/-! ## `get_global_crypto_data` (`defi.ts`, market tools section) -/

structure UsdMap where
  usd : Option JsNum
deriving DecidableEq

structure PctMap where
  btc : Option JsNum
  eth : Option JsNum
deriving DecidableEq

structure GlobalData where
  active_cryptocurrencies : Option JsNum
  markets : Option JsNum
  total_market_cap : Option UsdMap
  total_volume : Option UsdMap
  market_cap_percentage : Option PctMap
  market_cap_change_percentage_24h_usd : Option JsNum
deriving DecidableEq

structure GlobalResp where
  data : Option GlobalData
deriving DecidableEq

structure GlobalResult where
  active_cryptocurrencies : Option JsNum
  markets : Option JsNum
  total_market_cap_usd : Option JsNum
  total_volume_24h_usd : Option JsNum
  btc_dominance : String
  eth_dominance : String
  market_cap_change_24h : String
deriving DecidableEq

/-- `const d = (data as any).data` followed by field reads: a payload with no
`data` object makes every field access throw a `TypeError`. -/
def getGlobalCryptoData (resp : GlobalResp) : Except String (ToolResult GlobalResult) :=
  match resp.data with
  | none => .error "TypeError: Cannot read properties of undefined"
  | some d =>
      .ok (formatToolResult
        ⟨d.active_cryptocurrencies, d.markets, d.total_market_cap.bind UsdMap.usd,
         d.total_volume.bind UsdMap.usd, pctStr (d.market_cap_percentage.bind PctMap.btc),
         pctStr (d.market_cap_percentage.bind PctMap.eth),
         pctStr d.market_cap_change_percentage_24h_usd⟩ [Api.getGlobalMarketData_url])

/-! ## `get_crypto_fear_greed` (`defi.ts`, market tools section)

The static `interpretation` lookup table of the result (five fixed strings)
is omitted here; no claim concerns it. -/

structure FGItem where
  value : Option String
  value_classification : Option String
  timestamp : Option String
deriving DecidableEq

structure FGResp where
  data : Option (List FGItem)
deriving DecidableEq

structure FGCurrent where
  value : Option ℤ
  classification : Option String
  timestamp : String
deriving DecidableEq

structure FGHistEntry where
  value : Option ℤ
  classification : Option String
  date : String
deriving DecidableEq

structure FGResult where
  current : FGCurrent
  history : Option (List FGHistEntry)
deriving DecidableEq

/-- `new Date(parseInt(item.timestamp) * 1000).toISOString()` — throws when
the timestamp is missing or unparseable (`parseInt` gives `NaN`). -/
def fgTimestampIso (timestamp : Option String) : Except String String :=
  toISOStringE ((parseIntOpt timestamp).map (· * 1000))

def mkFGHistEntry (item : FGItem) : Except String FGHistEntry := do
  let iso ← fgTimestampIso item.timestamp
  pure ⟨parseIntOpt item.value, item.value_classification, splitDatePart iso⟩

def getCryptoFearGreed (resp : FGResp) : Except String (ToolResult FGResult) := do
  let first := resp.data.bind List.head?
  let curIso ← fgTimestampIso (first.bind FGItem.timestamp)
  let current : FGCurrent :=
    ⟨parseIntOpt (first.bind FGItem.value), first.bind FGItem.value_classification, curIso⟩
  let history ←
    match resp.data with
    | none => pure none
    | some l => Except.map some (mapE mkFGHistEntry (l.take 7))
  pure (formatToolResult ⟨current, history⟩ [Api.getFearGreedIndex_url])

/-! ## `get_top_crypto_coins` (`defi.ts`, market tools section) -/

structure RawCoin where
  market_cap_rank : Option JsNum
  id : Option String
  symbol : Option String
  name : Option String
  current_price : Option JsNum
  market_cap : Option JsNum
  total_volume : Option JsNum
  price_change_percentage_1h_in_currency : Option JsNum
  price_change_percentage_24h : Option JsNum
  price_change_percentage_7d_in_currency : Option JsNum
  price_change_percentage_30d_in_currency : Option JsNum
  ath : Option JsNum
  ath_change_percentage : Option JsNum
deriving DecidableEq

structure TopCoinsInput where
  limit : ℕ
  page : ℕ
deriving DecidableEq

structure CoinEntry where
  rank : Option JsNum
  id : Option String
  symbol : Option String
  name : Option String
  price_usd : Option JsNum
  market_cap : Option JsNum
  volume_24h : Option JsNum
  price_change_1h : String
  price_change_24h : String
  price_change_7d : String
  price_change_30d : String
  ath : Option JsNum
  ath_change : String
deriving DecidableEq

def mkCoinEntry (c : RawCoin) : CoinEntry :=
  ⟨c.market_cap_rank, c.id, (c.symbol).map String.toUpper, c.name, c.current_price,
   c.market_cap, c.total_volume, pctStr c.price_change_percentage_1h_in_currency,
   pctStr c.price_change_percentage_24h, pctStr c.price_change_percentage_7d_in_currency,
   pctStr c.price_change_percentage_30d_in_currency, c.ath, pctStr c.ath_change_percentage⟩

structure CoinsResult where
  coins : List CoinEntry
  count : ℕ
deriving DecidableEq

/-- `const limit = Math.min(input.limit, 100)` — the per-page size requested
from the provider. -/
def topCoinsPerPage (input : TopCoinsInput) : ℕ := min input.limit 100

def getTopCryptoCoins (input : TopCoinsInput) (data : Option (List RawCoin)) :
    ToolResult CoinsResult :=
  let coins := (data.getD []).map mkCoinEntry
  formatToolResult ⟨coins, coins.length⟩
    [Api.getTopCoins_url "usd" (topCoinsPerPage input) input.page "market_cap_desc"]

/-! ## `get_crypto_ohlc` (`defi.ts`, market tools section) -/

structure OhlcInput where
  token_id : String
  days : ℤ
  vs_currency : String
deriving DecidableEq

structure OhlcEntry where
  timestamp : String
  open_ : Option JsNum
  high : Option JsNum
  low : Option JsNum
  close : Option JsNum
deriving DecidableEq

/-- One candle `[timestamp, open, high, low, close]`:
`new Date(candle[0]).toISOString()` throws when the timestamp is absent. -/
def mkOhlcEntry (candle : List JsNum) : Except String OhlcEntry := do
  let iso ← toISOStringE ((candle.head?).map JsNum.trunc)
  pure ⟨iso, candle.get? 1, candle.get? 2, candle.get? 3, candle.get? 4⟩

structure OhlcResult where
  ohlc : List OhlcEntry
  count : ℕ
deriving DecidableEq

def getCryptoOHLC (input : OhlcInput) (data : Option (List (List JsNum))) :
    Except String (ToolResult OhlcResult) := do
  let formatted ← mapE mkOhlcEntry (data.getD [])
  pure (formatToolResult ⟨formatted, formatted.length⟩
    [Api.getTokenOHLC_url input.token_id input.vs_currency input.days])

/-! ## URL provenance predicates (for the source-URL property) -/

/-- `u` begins with the fixed base URL `base`. -/
def startsWithBase (base u : String) : Prop := ∃ rest, u = base ++ rest

/-- A tool's source-URL list is non-empty and every URL in it begins with
the provider's fixed base URL. -/
def urlsOk (base : String) (urls : List String) : Prop :=
  urls ≠ [] ∧ ∀ u ∈ urls, startsWithBase base u

/-! ## Success predicates for `get_crypto_fear_greed` -/

/-- The timestamp string parses to an integer whose millisecond value is in
`Date`'s representable range (so `toISOString` does not throw). -/
def tsOk (o : Option String) : Bool :=
  match (parseIntOpt o).map (· * 1000) with
  | none => false
  | some ms => decide (ms.natAbs ≤ 8640000000000000)

/-- The fear-greed payload has a non-empty `data` array whose first seven
entries all carry a parseable, in-range timestamp. -/
def fgOk (resp : FGResp) : Bool :=
  match resp.data with
  | none => false
  | some l => !l.isEmpty && (l.take 7).all (fun it => tsOk it.timestamp)

/-! ## The claimed (fully-encoded) form of the OHLC URL -/

/-- The URL `getTokenOHLC` would build if it percent-encoded `vs_currency`
and `days` the way `searchTokens` encodes its query (the spec's claim). -/
def ohlcClaimedUrl (id vsCurrency : String) (days : ℤ) : String :=
  COINGECKO_BASE ++ "/coins/" ++ encodeURIComponent id ++ "/ohlc?vs_currency=" ++
    encodeURIComponent vsCurrency ++ "&days=" ++ encodeURIComponent (toString days)

/-! ## Concrete instances used by counterexamples and witnesses -/

def exC1Data : Option (List ChainTvlPoint) :=
  some [⟨some 0, some (JsNum.dec (-1) 1)⟩, ⟨some 86400, some 5⟩]

def exC1OkData : Option (List ChainTvlPoint) :=
  some [⟨some 0, some 5⟩, ⟨some 86400, some 6⟩]

def exC1Trend : ToolResult ChainTrendResult :=
  (getChainTVLTrend "Ethereum" exC1OkData).toOption.getD
    (formatToolResult ⟨"", 0, 0, "", []⟩ [])

def exC4Detail : ProtocolDetail :=
  ⟨some "Aave", some "AAVE", some "Lending", some ["Ethereum"], some [⟨some 0, some 7⟩]⟩

def exC4Fetch : String → Option ProtocolDetail := fun p =>
  if p = "invalid" then none else some exC4Detail

def exC4Ids : List String := ["aave", "compound", "maker", "lido", "invalid"]

def exC5Item : TrendingItem :=
  ⟨some ⟨some "bitcoin", some "Bitcoin", some "btc", some 1, some (JsNum.dec 5 10), some 1⟩⟩

def exC5Resp8 : TrendingResp := ⟨some (List.replicate 8 exC5Item)⟩

def exC5Resp1 : TrendingResp := ⟨some [exC5Item]⟩

def exC6Pct : PctMap := ⟨some (JsNum.dec 543189 10000), some (JsNum.dec 182 10)⟩

def exC6Data : GlobalData := ⟨none, none, none, none, some exC6Pct, none⟩

def exC6Resp : GlobalResp := ⟨some exC6Data⟩

def exC8Trend : Option (List ChainTvlPoint) := some [⟨some 0, some 3⟩]

def exC8FG : FGResp := ⟨some [⟨some "40", some "Fear", some "0"⟩]⟩

def exC8Global : GlobalResp := ⟨some ⟨some 17000, none, none, none, none, none⟩⟩

def exC8OhlcInput : OhlcInput := ⟨"bitcoin", 30, "usd"⟩

def exC8TrendRes : ToolResult ChainTrendResult :=
  (getChainTVLTrend "Ethereum" exC8Trend).toOption.getD
    (formatToolResult ⟨"", 0, 0, "", []⟩ [])

def exC8GlobalRes : ToolResult GlobalResult :=
  (getGlobalCryptoData exC8Global).toOption.getD
    (formatToolResult ⟨none, none, none, none, "", "", ""⟩ [])

def exC8FGRes : ToolResult FGResult :=
  (getCryptoFearGreed exC8FG).toOption.getD (formatToolResult ⟨⟨none, none, ""⟩, none⟩ [])

def exC8Candles : Option (List (List JsNum)) := some [[0, 1, 2, 3, 4]]

def exC8OhlcRes : ToolResult OhlcResult :=
  (getCryptoOHLC exC8OhlcInput exC8Candles).toOption.getD (formatToolResult ⟨[], 0⟩ [])

def exC9FG : FGResp :=
  ⟨some [⟨some "25", some "Extreme Fear", some "0"⟩, ⟨none, none, some "86400"⟩]⟩

def exC9GlobalData : GlobalData :=
  ⟨some 17000, some 1200, some ⟨some 1⟩, some ⟨none⟩, none, none⟩

def exC9Global : GlobalResp := ⟨some exC9GlobalData⟩

def exC10Chains : Option (List RawChain) :=
  some [⟨some "Ethereum", some 10, some "ETH", some "ethereum"⟩, ⟨some "Tron", some 4, none, none⟩]

def exC10ChainList : List ChainEntry := ((getChainTVLData exC10Chains).result.chains).getD []

def exC10OhlcInput : OhlcInput := ⟨"bitcoin", 30, "usd"⟩

def exC10Candles : Option (List (List JsNum)) := some [[0, 1, 2, 3, 4]]

def exC10Ohlc : ToolResult OhlcResult :=
  (getCryptoOHLC exC10OhlcInput exC10Candles).toOption.getD (formatToolResult ⟨[], 0⟩ [])

/-! ## helper lemmas on strings -/

theorem str_data_append (s t : String) : (s ++ t).data = s.data ++ t.data := by
  cases s; cases t; rfl

theorem endsPercent_append (s : String) : endsPercent (s ++ "%") := by
  unfold endsPercent
  rw [str_data_append]
  exact List.getLast?_concat _

theorem endsPercent_pctStr (o : Option JsNum) : endsPercent (pctStr o) :=
  endsPercent_append _

theorem head_of_append (s t : String) (c : Char) (h : s.data.head? = some c) :
    (s ++ t).data.head? = some c := by
  rw [str_data_append]
  cases s with
  | mk l =>
    cases l with
    | nil => simp at h
    | cons a l' => simpa using h

theorem upstreamMsg_ne_rateLimitMsg (status : ℕ) (text : String) :
    upstreamMsg status text ≠ rateLimitMsg := by
  intro h
  have h0 : ("API request failed: " : String).data.head? = some 'A' := by decide
  have h1 : (upstreamMsg status text).data.head? = some 'A' :=
    head_of_append _ _ _ (head_of_append _ _ _ (head_of_append _ _ _ h0))
  have h2 : rateLimitMsg.data.head? = some 'R' := by decide
  rw [h, h2] at h1
  simp at h1

theorem append_percent_ne_NA (s : String) : s ++ "%" ≠ "N/A" := by
  intro h
  have h1 : (s ++ "%").data.getLast? = some '%' := endsPercent_append s
  rw [h] at h1
  simp at h1

/-! ## helper lemmas on options and effectful maps -/

theorem opt_bind_eq_map_getD (o : Option α) (f : α → Option β) :
    o.bind f = (o.map f).getD none := by cases o <;> rfl

theorem mapE_ok_map {f : α → Except ε β} {g : β → γ} {k : α → γ}
    (hf : ∀ a b, f a = .ok b → g b = k a) :
    ∀ {l : List α} {bl : List β}, mapE f l = .ok bl → bl.map g = l.map k := by
  intro l
  induction l with
  | nil =>
    intro bl h
    simp [mapE] at h
    subst h
    rfl
  | cons a t ih =>
    intro bl h
    unfold mapE at h
    cases hfa : f a with
    | error e => rw [hfa] at h; simp [Bind.bind, Except.bind] at h
    | ok b =>
      rw [hfa] at h
      cases ht : mapE f t with
      | error e => rw [ht] at h; simp [Bind.bind, Except.bind] at h
      | ok tl =>
        rw [ht] at h
        simp [Bind.bind, Except.bind] at h
        subst h
        simp only [List.map_cons, List.cons.injEq]
        exact ⟨hf a b hfa, ih ht⟩

theorem mapE_ok_length {f : α → Except ε β} {l : List α} {bl : List β}
    (h : mapE f l = .ok bl) : bl.length = l.length := by
  have hm := mapE_ok_map (g := fun _ => ()) (k := fun _ => ()) (fun _ _ _ => rfl) h
  have := congrArg List.length hm
  simpa using this

theorem mapE_isOk {f : α → Except ε β} :
    ∀ {l : List α}, (∀ a ∈ l, (f a).isOk = true) → (mapE f l).isOk = true := by
  intro l
  induction l with
  | nil => intro _; rfl
  | cons a t ih =>
    intro h
    unfold mapE
    cases hfa : f a with
    | error e =>
      have := h a (by simp)
      rw [hfa] at this
      simp [Except.isOk, Except.toBool] at this
    | ok b =>
      have ht := ih (fun x hx => h x (by simp [hx]))
      cases hm : mapE f t with
      | error e =>
        rw [hm] at ht
        simp [Except.isOk, Except.toBool] at ht
      | ok tl => simp [Bind.bind, Except.bind, hfa, hm, Except.isOk, Except.toBool]

/-! ## helper lemmas on the tool pipelines -/

theorem mkHistEntry_tvl (pt : ChainTvlPoint) (e : HistEntry)
    (h : mkHistEntry pt = .ok e) : e.tvl = pt.tvl := by
  unfold mkHistEntry at h
  cases hiso : toISOStringE (pt.date.map fun d => (d * 1000).trunc) with
  | error msg => rw [hiso] at h; simp [Bind.bind, Except.bind] at h
  | ok iso =>
    rw [hiso] at h
    simp [Bind.bind, Except.bind, pure, Except.pure] at h
    subst h
    rfl

theorem chainTrendHistory_tvl {data : Option (List ChainTvlPoint)} {hist : List HistEntry}
    (h : chainTrendHistory data = .ok hist) :
    hist.head?.bind HistEntry.tvl = chainTrendBaseline data := by
  have hm := mapE_ok_map (g := HistEntry.tvl) (k := ChainTvlPoint.tvl) mkHistEntry_tvl h
  have hh := congrArg List.head? hm
  rw [List.head?_map, List.head?_map] at hh
  unfold chainTrendBaseline
  rw [opt_bind_eq_map_getD, opt_bind_eq_map_getD, hh]

theorem fgTimestampIso_isOk {o : Option String} (h : tsOk o = true) :
    (fgTimestampIso o).isOk = true := by
  unfold tsOk at h
  unfold fgTimestampIso toISOStringE
  cases hp : (parseIntOpt o).map (· * 1000) with
  | none => rw [hp] at h; simp at h
  | some ms =>
    rw [hp] at h
    simp at h
    simp [h, Except.isOk, Except.toBool]

theorem mkFGHistEntry_isOk {it : FGItem} (h : tsOk it.timestamp = true) :
    (mkFGHistEntry it).isOk = true := by
  have hiso := fgTimestampIso_isOk h
  unfold mkFGHistEntry
  cases hI : fgTimestampIso it.timestamp with
  | error e => rw [hI] at hiso; simp [Except.isOk, Except.toBool] at hiso
  | ok s => simp [Bind.bind, Except.bind, hI, pure, Except.pure, Except.isOk, Except.toBool]

/-! ## helper lemmas on percent-encoding -/

theorem encChar_unreserved {c : Char} (h : uriUnreserved c = true) : encChar c = [c] := by
  simp [encChar, h]

theorem flatMap_encChar_id :
    ∀ l : List Char, (∀ c ∈ l, uriUnreserved c = true) → l.flatMap encChar = l := by
  intro l
  induction l with
  | nil => intro _; rfl
  | cons c t ih =>
    intro h
    have hc : encChar c = [c] := encChar_unreserved (h c (by simp))
    have ht : t.flatMap encChar = t := ih (fun x hx => h x (by simp [hx]))
    show encChar c ++ t.flatMap encChar = c :: t
    rw [hc, ht]
    rfl

theorem encodeURIComponent_invariant (s : String)
    (h : ∀ c ∈ s.data, uriUnreserved c = true) : encodeURIComponent s = s := by
  unfold encodeURIComponent
  rw [flatMap_encChar_id s.data h]

/-! ## helper lemmas on URL prefixes -/

theorem startsWithBase_appL (a b : String) : startsWithBase a (a ++ b) := ⟨b, rfl⟩

theorem startsWithBase_ext {a u : String} (h : startsWithBase a u) (c : String) :
    startsWithBase a (u ++ c) := by
  obtain ⟨r, hr⟩ := h
  exact ⟨r ++ c, by rw [hr, String.append_assoc]⟩

theorem urlsOk_single {base u : String} (h : startsWithBase base u) : urlsOk base [u] := by
  refine ⟨by simp, ?_⟩
  intro x hx
  simp at hx
  subst hx
  exact h

/-! ## helper lemmas for the two-decimal rendering -/

theorem pad2_digits :
    ∀ k : ℕ, k < 100 → twoDigitsCheck ((if k < 10 then "0" else "") ++ toString k) = true := by
  decide

theorem toFixed2_two_decimals (q : JsNum) :
    ∃ pre a b, (toFixed2 q).data = pre ++ ['.', a, b] ∧ a.isDigit = true ∧ b.isDigit = true := by
  have hmod : (200 * q.num.natAbs + q.den) / (2 * q.den) % 100 < 100 :=
    Nat.mod_lt _ (by norm_num)
  have hch := pad2_digits _ hmod
  unfold twoDigitsCheck at hch
  have ht : toFixed2 q =
      (if q.num < 0 then "-" else "") ++
        toString ((200 * q.num.natAbs + q.den) / (2 * q.den) / 100) ++ "." ++
        ((if (200 * q.num.natAbs + q.den) / (2 * q.den) % 100 < 10 then "0" else "") ++
          toString ((200 * q.num.natAbs + q.den) / (2 * q.den) % 100)) := rfl
  rcases hd : ((if (200 * q.num.natAbs + q.den) / (2 * q.den) % 100 < 10 then "0" else "") ++
      toString ((200 * q.num.natAbs + q.den) / (2 * q.den) % 100)).data with
    _ | ⟨a, _ | ⟨b, _ | ⟨c, t⟩⟩⟩
  · rw [hd] at hch; simp at hch
  · rw [hd] at hch; simp at hch
  · rw [hd] at hch
    simp at hch
    refine ⟨(if q.num < 0 then "-" else "").data ++
      (toString ((200 * q.num.natAbs + q.den) / (2 * q.den) / 100)).data, a, b, ?_, hch.1, hch.2⟩
    rw [ht, str_data_append, str_data_append, str_data_append, hd]
    simp
  · rw [hd] at hch; simp at hch

end Dexter

/-! ## Claim theorems -/

open Dexter

/-- **C3.** For every response and URL, an HTTP 429 makes `fetchJson` fail
with the dedicated rate-limited condition carrying the retry-later message,
while any other non-2xx status fails with the generic upstream message, and
the two messages are distinguishable (never equal, for any status/text). -/
theorem C3_rate_limited_distinct (r : HttpResponse α) (url : String) :
    (r.status = 429 → fetchJson r url = .error rateLimitMsg) ∧
    (responseOk r.status = false → r.status ≠ 429 →
      fetchJson r url = .error (upstreamMsg r.status r.statusText)) ∧
    (∀ status text, upstreamMsg status text ≠ rateLimitMsg) := by
  refine ⟨?_, ?_, upstreamMsg_ne_rateLimitMsg⟩
  · intro h
    unfold fetchJson
    rw [h]
    have : responseOk 429 = false := by decide
    simp [this]
  · intro hok h429
    unfold fetchJson
    simp [hok, h429]

/-- Witness for C3 at concrete responses: a 429 yields the rate-limit error,
a 500 yields the generic upstream error. -/
theorem C3_rate_limited_distinct_witness :
    fetchJson (α := Unit) ⟨429, "Too Many Requests", ()⟩ "https://api.llama.fi/protocols"
        = .error rateLimitMsg ∧
    fetchJson (α := Unit) ⟨500, "Internal Server Error", ()⟩ "https://api.llama.fi/protocols"
        = .error (upstreamMsg 500 "Internal Server Error") :=
  ⟨(C3_rate_limited_distinct ⟨429, "Too Many Requests", ()⟩ _).1 rfl,
   (C3_rate_limited_distinct ⟨500, "Internal Server Error", ()⟩ _).2.1 (by decide) (by decide)⟩

/-- **C1 (amended).** Every percentage-change field is a string ending in
`'%'` or the literal `"N/A"`; the division-based fields (`change_90d` of
`get_chain_tvl_trend`, `tvl_change_30d` of `compare_defi_protocols`) render
`"N/A"` exactly when the baseline (denominator) value is non-positive or
missing, while the pass-through percentage fields of `get_top_defi_protocols`
and `get_defi_yields` always end in `'%'`. -/
theorem C1_percentage_fields :
    (∀ p : RawProtocol,
       endsPercent (mkTopDefiEntry p).tvl_change_1d ∧
       endsPercent (mkTopDefiEntry p).tvl_change_7d ∧
       endsPercent (mkTopDefiEntry p).tvl_change_1m) ∧
    (∀ p : RawPool,
       endsPercent (mkYieldEntry p).apy ∧
       endsPercent (mkYieldEntry p).apy_base ∧
       endsPercent (mkYieldEntry p).apy_reward) ∧
    (∀ (chain : String) (data : Option (List ChainTvlPoint)) (tr : ToolResult ChainTrendResult),
       getChainTVLTrend chain data = .ok tr →
       (endsPercent tr.result.change_90d ∨ tr.result.change_90d = "N/A") ∧
       (tr.result.change_90d = "N/A" ↔ ¬ (0 : JsNum) < (chainTrendBaseline data).getD 0)) ∧
    (∀ r : CompareEntryMid,
       (endsPercent (addChange r).tvl_change_30d ∨ (addChange r).tvl_change_30d = "N/A") ∧
       ((addChange r).tvl_change_30d = "N/A" ↔ ¬ (0 : JsNum) < r.tvl_30d_ago.getD 0)) := by
  refine ⟨?_, ?_, ?_, ?_⟩
  · intro p
    exact ⟨endsPercent_pctStr _, endsPercent_pctStr _, endsPercent_pctStr _⟩
  · intro p
    exact ⟨endsPercent_pctStr _, endsPercent_pctStr _, endsPercent_pctStr _⟩
  · intro chain data tr h
    unfold getChainTVLTrend at h
    cases hh : chainTrendHistory data with
    | error e => rw [hh] at h; simp [Bind.bind, Except.bind] at h
    | ok hist =>
      rw [hh] at h
      simp [Bind.bind, Except.bind, pure, Except.pure] at h
      subst h
      have hbase := chainTrendHistory_tvl hh
      dsimp only [formatToolResult]
      by_cases h0 : (0 : JsNum) < (hist.head?.bind HistEntry.tvl).getD 0
      · rw [if_pos h0]
        rw [hbase] at h0
        exact ⟨Or.inl (endsPercent_append _),
          iff_of_false (append_percent_ne_NA _) (fun hn => hn h0)⟩
      · rw [if_neg h0]
        rw [hbase] at h0
        exact ⟨Or.inr rfl, iff_of_true rfl h0⟩
  · intro r
    unfold addChange
    by_cases h0 : (0 : JsNum) < r.tvl_30d_ago.getD 0
    · rw [if_pos h0]
      exact ⟨Or.inl (endsPercent_append _),
        iff_of_false (append_percent_ne_NA _) (fun hn => hn h0)⟩
    · rw [if_neg h0]
      exact ⟨Or.inr rfl, iff_of_true rfl h0⟩

/-- Witness for C1 at a concrete 90-day history with a positive baseline:
the rendered change ends in `'%'` (is not `"N/A"`). -/
theorem C1_percentage_fields_witness :
    (endsPercent exC1Trend.result.change_90d ∨ exC1Trend.result.change_90d = "N/A") ∧
    (exC1Trend.result.change_90d = "N/A" ↔
      ¬ (0 : JsNum) < (chainTrendBaseline exC1OkData).getD 0) :=
  C1_percentage_fields.2.2.1 "Ethereum" exC1OkData exC1Trend (by decide)

/-- Counterexample for C1 as stated: a history whose first TVL is `-1`
(present and nonzero) still renders `change_90d` as `"N/A"`, so "`N/A`
exactly when the baseline is zero or missing" is false. -/
theorem C1_counterexample :
    (getChainTVLTrend "Ethereum" exC1Data).map (fun tr => tr.result.change_90d) =
      .ok "N/A" ∧
    chainTrendBaseline exC1Data = some (JsNum.dec (-1) 1) ∧
    ¬ (chainTrendBaseline exC1Data = none ∨ chainTrendBaseline exC1Data = some 0) := by
  decide

/-- **C2.** The sorting-and-slicing tools return entries in non-increasing
order of the sort key (TVL for `get_top_defi_protocols`, APY for
`get_defi_yields`), return at most `limit` entries, and
`get_top_crypto_coins` caps the per-page size it requests at the provider
maximum of 100. -/
theorem C2_sort_slice_cap :
    (∀ (input : TopDefiInput) (data : List RawProtocol),
       List.Sorted (keyGE TopDefiEntry.tvl) (getTopDefiProtocols input data).result.protocols ∧
       (getTopDefiProtocols input data).result.protocols.length ≤ input.limit) ∧
    (∀ (input : YieldsInput) (resp : YieldsResp),
       List.Sorted (keyGE RawPool.apy) (yieldsSelected input resp) ∧
       (getDefiYields input resp).result.pools = (yieldsSelected input resp).map mkYieldEntry ∧
       (getDefiYields input resp).result.pools.length ≤ input.limit) ∧
    (∀ input : TopCoinsInput, topCoinsPerPage input ≤ 100) := by
  refine ⟨?_, ?_, ?_⟩
  · intro input data
    have hs : List.Sorted (keyGE RawProtocol.tvl) (topDefiSelected input data) :=
      (List.sorted_insertionSort _ _).sublist (List.take_sublist _ _)
    constructor
    · show List.Sorted (keyGE TopDefiEntry.tvl)
        ((topDefiSelected input data).map mkTopDefiEntry)
      exact List.pairwise_map.mpr (hs.imp (fun h => h))
    · show ((topDefiSelected input data).map mkTopDefiEntry).length ≤ input.limit
      rw [List.length_map]
      exact List.length_take_le _ _
  · intro input resp
    refine ⟨(List.sorted_insertionSort _ _).sublist (List.take_sublist _ _), rfl, ?_⟩
    show ((yieldsSelected input resp).map mkYieldEntry).length ≤ input.limit
    rw [List.length_map]
    exact List.length_take_le _ _
  · intro input
    exact min_le_right _ _

/-- **C4.** The comparison tool fetches at most 5 protocols (the first 5 of
the request); each entry is error-marked exactly when its own fetch failed,
a successful fetch always yields an unmarked data entry, and on the concrete
5-identifier request with one invalid identifier the call returns 4 data
entries and 1 error-marked entry instead of failing. -/
theorem C4_compare_fanout (fetch : String → Option ProtocolDetail) (protocols : List String) :
    (compareFetched protocols).length ≤ 5 ∧
    (compareDefiProtocols fetch protocols).result.comparison =
      (compareFetched protocols).map (fun p => addChange (compareStep fetch p)) ∧
    (∀ p, ((compareStep fetch p).error.isSome) = (fetch p).isNone ∧
          ((addChange (compareStep fetch p)).error.isSome) = (fetch p).isNone) ∧
    (∀ p d, fetch p = some d → (compareStep fetch p).error = none) ∧
    ((compareDefiProtocols exC4Fetch exC4Ids).result.comparison.length = 5 ∧
     (compareDefiProtocols exC4Fetch exC4Ids).result.comparison.countP
        (fun e => e.error.isSome) = 1 ∧
     (compareDefiProtocols exC4Fetch exC4Ids).result.comparison.countP
        (fun e => e.error.isNone) = 4) := by
  refine ⟨List.length_take_le _ _, ?_, ?_, ?_, by decide⟩
  · show ((compareFetched protocols).map (compareStep fetch)).map addChange =
      (compareFetched protocols).map (fun p => addChange (compareStep fetch p))
    rw [List.map_map]
    rfl
  · intro p
    cases hf : fetch p <;> simp [compareStep, addChange, hf]
  · intro p d hf
    simp [compareStep, hf]

/-- Witness for C4: a successful fetch produces an unmarked entry. -/
theorem C4_compare_fanout_witness :
    (compareStep exC4Fetch "aave").error = none :=
  (C4_compare_fanout exC4Fetch exC4Ids).2.2.2.1 "aave" exC4Detail (by decide)

/-- **C5 (amended).** `get_trending_crypto` returns exactly one entry per
upstream coin — hence at most 7 entries whenever the upstream reports at
most 7 — and each entry carries the upstream item's `id`, `name`, the
`symbol` uppercased, and the `score` (missing fields pass through as null). -/
theorem C5_trending_shape (resp : TrendingResp) :
    (getTrendingCrypto resp).result.trending_coins.length = (resp.coins.getD []).length ∧
    (getTrendingCrypto resp).result.trending_coins = (resp.coins.getD []).map mkTrendingEntry ∧
    (∀ it : TrendingItem,
       (mkTrendingEntry it).id = it.item.bind TrendingInner.id ∧
       (mkTrendingEntry it).name = it.item.bind TrendingInner.name ∧
       (mkTrendingEntry it).symbol = (it.item.bind TrendingInner.symbol).map String.toUpper ∧
       (mkTrendingEntry it).score = it.item.bind TrendingInner.score) ∧
    ((resp.coins.getD []).length ≤ 7 →
      (getTrendingCrypto resp).result.trending_coins.length ≤ 7) := by
  refine ⟨?_, rfl, fun it => ⟨rfl, rfl, rfl, rfl⟩, ?_⟩
  · show ((resp.coins.getD []).map mkTrendingEntry).length = (resp.coins.getD []).length
    exact List.length_map _ _
  · intro h
    show ((resp.coins.getD []).map mkTrendingEntry).length ≤ 7
    rw [List.length_map]
    exact h

/-- Witness for C5 on a one-coin upstream response. -/
theorem C5_trending_shape_witness :
    (getTrendingCrypto exC5Resp1).result.trending_coins.length ≤ 7 :=
  (C5_trending_shape exC5Resp1).2.2.2 (by decide)

/-- Counterexample for C5 as stated: an upstream response listing 8 coins
yields 8 entries — the tool never truncates to 7. -/
theorem C5_counterexample :
    (getTrendingCrypto exC5Resp8).result.trending_coins.length = 8 ∧
    ¬ (getTrendingCrypto exC5Resp8).result.trending_coins.length ≤ 7 := by
  decide

/-- **C6.** `get_global_crypto_data` renders `btc_dominance` by formatting
the upstream BTC market-cap percentage to two decimal places (the rendered
string always has exactly two fraction digits) with a `'%'` suffix; the
upstream value 54.3189 yields exactly `"54.32"` + `"%"`. -/
theorem C6_btc_dominance (resp : GlobalResp) (d : GlobalData) (mp : PctMap) (v : JsNum)
    (h1 : resp.data = some d) (h2 : d.market_cap_percentage = some mp)
    (h3 : mp.btc = some v) :
    (getGlobalCryptoData resp).map (fun tr => tr.result.btc_dominance) =
      .ok (toFixed2 v ++ "%") ∧
    toFixed2 (JsNum.dec 543189 10000) = "54.32" ∧
    (∃ pre a b, (toFixed2 v).data = pre ++ ['.', a, b] ∧
      a.isDigit = true ∧ b.isDigit = true) := by
  refine ⟨?_, by decide, toFixed2_two_decimals v⟩
  unfold getGlobalCryptoData
  rw [h1]
  simp [Except.map, formatToolResult, pctStr, h2, h3]

/-- Witness for C6 at the concrete upstream value 54.3189. -/
theorem C6_btc_dominance_witness :
    (getGlobalCryptoData exC6Resp).map (fun tr => tr.result.btc_dominance) =
      .ok "54.32%" := by
  have h := (C6_btc_dominance exC6Resp exC6Data exC6Pct (JsNum.dec 543189 10000)
    rfl rfl rfl).1
  rw [h]
  decide

/-- **C7 (amended).** `searchTokens` percent-encodes its query and
`getTokenOHLC` percent-encodes its `id` path segment, but `getTokenOHLC`
interpolates `vs_currency` and `days` into the query string without
encoding; the claimed fully-encoded form is only reached when those values
contain no characters that encoding would change. -/
theorem C7_url_encoding (q id vsCurrency : String) (days : ℤ) :
    Api.searchTokens_url q =
      COINGECKO_BASE ++ "/search?query=" ++ encodeURIComponent q ∧
    Api.getTokenOHLC_url id vsCurrency days =
      COINGECKO_BASE ++ "/coins/" ++ encodeURIComponent id ++ "/ohlc?vs_currency=" ++
        vsCurrency ++ "&days=" ++ toString days ∧
    ((∀ c ∈ vsCurrency.data, uriUnreserved c = true) →
     (∀ c ∈ (toString days).data, uriUnreserved c = true) →
      Api.getTokenOHLC_url id vsCurrency days = ohlcClaimedUrl id vsCurrency days) := by
  refine ⟨rfl, rfl, ?_⟩
  intro h1 h2
  unfold Api.getTokenOHLC_url ohlcClaimedUrl
  rw [encodeURIComponent_invariant _ h1, encodeURIComponent_invariant _ h2]

/-- Witness for C7: for the ASCII-safe currency `"usd"` and numeric `days`
the raw interpolation coincides with the fully-encoded form. -/
theorem C7_url_encoding_witness :
    Api.getTokenOHLC_url "bitcoin" "usd" 30 = ohlcClaimedUrl "bitcoin" "usd" 30 :=
  (C7_url_encoding "x" "bitcoin" "usd" 30).2.2 (by decide) (by decide)

/-- Counterexample for C7 as stated: with `vs_currency = "a&b"` the built
URL is not the percent-encoded form (the `&` is interpolated raw). -/
theorem C7_counterexample :
    Api.getTokenOHLC_url "bitcoin" "a&b" 30 ≠ ohlcClaimedUrl "bitcoin" "a&b" 30 := by
  decide

/-- **C8.** Every modelled tool's source-URL list is non-empty and every URL
in it begins with the fixed base URL of the provider that was queried, and
every API-client URL begins with its provider's fixed base URL. -/
theorem C8_source_urls :
    (∀ (input : TopDefiInput) (data : List RawProtocol),
        urlsOk DEFILLAMA_BASE (getTopDefiProtocols input data).urls) ∧
    (∀ data, urlsOk DEFILLAMA_BASE (getChainTVLData data).urls) ∧
    (∀ (input : YieldsInput) (resp : YieldsResp),
        urlsOk DEFILLAMA_BASE (getDefiYields input resp).urls) ∧
    (∀ (fetch : String → Option ProtocolDetail) (ps : List String),
        urlsOk DEFILLAMA_BASE (compareDefiProtocols fetch ps).urls) ∧
    (∀ resp, urlsOk COINGECKO_BASE (getTrendingCrypto resp).urls) ∧
    (∀ (input : TopCoinsInput) data,
        urlsOk COINGECKO_BASE (getTopCryptoCoins input data).urls) ∧
    (∀ (chain : String) (data : Option (List ChainTvlPoint)) (tr : ToolResult ChainTrendResult),
        getChainTVLTrend chain data = .ok tr → urlsOk DEFILLAMA_BASE tr.urls) ∧
    (∀ (resp : GlobalResp) (tr : ToolResult GlobalResult),
        getGlobalCryptoData resp = .ok tr → urlsOk COINGECKO_BASE tr.urls) ∧
    (∀ (resp : FGResp) (tr : ToolResult FGResult),
        getCryptoFearGreed resp = .ok tr → urlsOk ALTERNATIVE_BASE tr.urls) ∧
    (∀ (input : OhlcInput) (data : Option (List (List JsNum))) (tr : ToolResult OhlcResult),
        getCryptoOHLC input data = .ok tr → urlsOk COINGECKO_BASE tr.urls) ∧
    (∀ s : String,
        startsWithBase COINGECKO_BASE (Api.searchTokens_url s) ∧
        startsWithBase DEFILLAMA_BASE (Api.getProtocolTVL_url s) ∧
        startsWithBase DEFILLAMA_BASE (Api.getChainTVLHistory_url s)) ∧
    startsWithBase ALTERNATIVE_BASE Api.getFearGreedIndex_url ∧
    startsWithBase STABLECOINS_BASE Api.getStablecoins_url ∧
    startsWithBase DEFILLAMA_BASE Api.getDefiProtocols_url ∧
    startsWithBase DEFILLAMA_BASE Api.getChainsTVL_url ∧
    startsWithBase DEFILLAMA_BASE Api.getYieldPools_url ∧
    startsWithBase DEFILLAMA_BASE Api.getDexVolumes_url ∧
    startsWithBase COINGECKO_BASE Api.getTrendingTokens_url ∧
    startsWithBase COINGECKO_BASE Api.getGlobalMarketData_url ∧
    startsWithBase COINGECKO_BASE Api.getCategories_url := by
  refine ⟨?_, ?_, ?_, ?_, ?_, ?_, ?_, ?_, ?_, ?_, ?_, ⟨"/fng/?limit=10", by decide⟩,
    ⟨"/stablecoins?includePrices=true", by decide⟩, startsWithBase_appL _ _,
    startsWithBase_appL _ _, startsWithBase_appL _ _, startsWithBase_appL _ _,
    startsWithBase_appL _ _, startsWithBase_appL _ _, startsWithBase_appL _ _⟩
  · intro input data
    exact urlsOk_single (startsWithBase_appL _ _)
  · intro data
    exact urlsOk_single (startsWithBase_appL _ _)
  · intro input resp
    exact urlsOk_single (startsWithBase_appL _ _)
  · intro fetch ps
    exact urlsOk_single ⟨"", by decide⟩
  · intro resp
    exact urlsOk_single (startsWithBase_appL _ _)
  · intro input data
    exact urlsOk_single (startsWithBase_ext (startsWithBase_appL _ _) _)
  · intro chain data tr h
    unfold getChainTVLTrend at h
    cases hh : chainTrendHistory data with
    | error e => rw [hh] at h; simp [Bind.bind, Except.bind] at h
    | ok hist =>
      rw [hh] at h
      simp [Bind.bind, Except.bind, pure, Except.pure] at h
      subst h
      exact urlsOk_single (startsWithBase_ext (startsWithBase_appL _ _) _)
  · intro resp tr h
    unfold getGlobalCryptoData at h
    cases hd : resp.data with
    | none => rw [hd] at h; simp at h
    | some d =>
      rw [hd] at h
      simp at h
      subst h
      exact urlsOk_single (startsWithBase_appL _ _)
  · intro resp tr h
    unfold getCryptoFearGreed at h
    cases hd : resp.data with
    | none =>
      rw [hd] at h
      simp only [Option.none_bind] at h
      rw [show fgTimestampIso none = Except.error "Invalid time value" from rfl] at h
      simp [Bind.bind, Except.bind] at h
    | some l =>
      rw [hd] at h
      simp only [Option.some_bind] at h
      cases hI : fgTimestampIso (l.head?.bind FGItem.timestamp) with
      | error e => rw [hI] at h; simp [Bind.bind, Except.bind] at h
      | ok s =>
        rw [hI] at h
        cases hM : mapE mkFGHistEntry (l.take 7) with
        | error e => rw [hM] at h; simp [Bind.bind, Except.bind, Except.map] at h
        | ok v =>
          rw [hM] at h
          simp [Bind.bind, Except.bind, Except.map, pure, Except.pure] at h
          subst h
          exact urlsOk_single ⟨"/fng/?limit=10", by decide⟩
  · intro input data tr h
    unfold getCryptoOHLC at h
    cases hM : mapE mkOhlcEntry (data.getD []) with
    | error e => rw [hM] at h; simp [Bind.bind, Except.bind] at h
    | ok v =>
      rw [hM] at h
      simp [Bind.bind, Except.bind, pure, Except.pure] at h
      subst h
      exact urlsOk_single (startsWithBase_ext (startsWithBase_ext (startsWithBase_ext
        (startsWithBase_ext (startsWithBase_ext (startsWithBase_appL _ _) _) _) _) _) _)
  · intro s
    exact ⟨startsWithBase_ext (startsWithBase_appL _ _) _,
      startsWithBase_ext (startsWithBase_appL _ _) _,
      startsWithBase_ext (startsWithBase_appL _ _) _⟩

/-- Witness for C8: the successful-call conjuncts at concrete responses. -/
theorem C8_source_urls_witness :
    urlsOk DEFILLAMA_BASE exC8TrendRes.urls ∧
    urlsOk COINGECKO_BASE exC8GlobalRes.urls ∧
    urlsOk ALTERNATIVE_BASE exC8FGRes.urls ∧
    urlsOk COINGECKO_BASE exC8OhlcRes.urls :=
  ⟨C8_source_urls.2.2.2.2.2.2.1 "Ethereum" exC8Trend exC8TrendRes (by decide),
   C8_source_urls.2.2.2.2.2.2.2.1 exC8Global exC8GlobalRes (by decide),
   C8_source_urls.2.2.2.2.2.2.2.2.1 exC8FG exC8FGRes (by decide),
   C8_source_urls.2.2.2.2.2.2.2.2.2.1 exC8OhlcInput exC8Candles exC8OhlcRes (by decide)⟩

/-- **C9 (amended).** The reshaping tolerates missing upstream fields
except for two throwing paths: `get_crypto_fear_greed` succeeds whenever the
payload has a non-empty `data` array whose first seven entries carry
parseable in-range timestamps (other missing fields become null), but throws
when a needed timestamp is missing; `get_global_crypto_data` succeeds
whenever the top-level `data` object is present (missing nested fields
become null or `"undefined%"`), and throws exactly when it is absent. -/
theorem C9_missing_fields (resp : FGResp) (g : GlobalResp) (d : GlobalData) :
    (fgOk resp = true → (getCryptoFearGreed resp).isOk = true) ∧
    (g.data = some d → (getGlobalCryptoData g).isOk = true) ∧
    (g.data = none →
      getGlobalCryptoData g = .error "TypeError: Cannot read properties of undefined") := by
  refine ⟨?_, ?_, ?_⟩
  · intro h
    unfold fgOk at h
    cases hd : resp.data with
    | none => rw [hd] at h; simp at h
    | some l =>
      rw [hd] at h
      cases l with
      | nil => simp at h
      | cons a t =>
        rw [Bool.and_eq_true] at h
        have hall : ∀ x ∈ (a :: t).take 7, tsOk x.timestamp = true :=
          fun x hx => List.all_eq_true.mp h.2 x hx
        have htake : (a :: t).take 7 = a :: t.take 6 := rfl
        have hts : tsOk a.timestamp = true :=
          hall a (by rw [htake]; exact List.mem_cons_self _ _)
        have hiso := fgTimestampIso_isOk hts
        unfold getCryptoFearGreed
        rw [hd]
        simp only [Option.some_bind, List.head?_cons]
        cases hI : fgTimestampIso a.timestamp with
        | error e => rw [hI] at hiso; simp [Except.isOk, Except.toBool] at hiso
        | ok s =>
          have hmap : (mapE mkFGHistEntry ((a :: t).take 7)).isOk = true :=
            mapE_isOk (fun x hx => mkFGHistEntry_isOk (hall x hx))
          cases hM : mapE mkFGHistEntry ((a :: t).take 7) with
          | error e => rw [hM] at hmap; simp [Except.isOk, Except.toBool] at hmap
          | ok v =>
            simp [Bind.bind, Except.bind, hI, hM, Except.map, pure, Except.pure,
              Except.isOk, Except.toBool]
  · intro h
    unfold getGlobalCryptoData
    rw [h]
    rfl
  · intro h
    unfold getGlobalCryptoData
    rw [h]

/-- Witness for C9: a fear-greed payload whose second entry has no value or
classification still succeeds, as does a global payload with most nested
fields missing. -/
theorem C9_missing_fields_witness :
    (getCryptoFearGreed exC9FG).isOk = true ∧
    (getGlobalCryptoData exC9Global).isOk = true :=
  ⟨(C9_missing_fields exC9FG exC9Global exC9GlobalData).1 (by decide),
   (C9_missing_fields exC9FG exC9Global exC9GlobalData).2.1 rfl⟩

/-- Counterexample for C9 as stated: `get_crypto_fear_greed` raises (rather
than defaulting to null) on an upstream payload whose `data` array is empty,
because `new Date(NaN).toISOString()` throws. -/
theorem C9_counterexample :
    getCryptoFearGreed ⟨some []⟩ = .error "Invalid time value" := by decide

/-- **C10.** In every tool result that carries a `count` beside a list, the
`count` equals the length of the returned list (0 when the list is absent):
`get_top_defi_protocols`, `get_chain_tvl_data`, `get_defi_yields`, and
`get_crypto_ohlc`. -/
theorem C10_count_matches :
    (∀ (input : TopDefiInput) (data : List RawProtocol),
       (getTopDefiProtocols input data).result.count =
         (getTopDefiProtocols input data).result.protocols.length) ∧
    (∀ data : Option (List RawChain),
       ((getChainTVLData data).result.chains = none →
          (getChainTVLData data).result.count = 0) ∧
       (∀ l, (getChainTVLData data).result.chains = some l →
          (getChainTVLData data).result.count = l.length)) ∧
    (∀ (input : YieldsInput) (resp : YieldsResp),
       (getDefiYields input resp).result.count =
         (getDefiYields input resp).result.pools.length) ∧
    (∀ (input : OhlcInput) (data : Option (List (List JsNum))) (tr : ToolResult OhlcResult),
       getCryptoOHLC input data = .ok tr → tr.result.count = tr.result.ohlc.length) := by
  refine ⟨fun _ _ => rfl, ?_, fun _ _ => rfl, ?_⟩
  · intro data
    constructor
    · intro h
      cases data with
      | none => rfl
      | some l => simp [getChainTVLData, formatToolResult] at h
    · intro l h
      cases data with
      | none => simp [getChainTVLData, formatToolResult] at h
      | some raw =>
        simp [getChainTVLData, formatToolResult] at h ⊢
        rw [← h]
        simp [List.length_take, List.length_map]
  · intro input data tr h
    unfold getCryptoOHLC at h
    cases hM : mapE mkOhlcEntry (data.getD []) with
    | error e => rw [hM] at h; simp [Bind.bind, Except.bind] at h
    | ok v =>
      rw [hM] at h
      simp [Bind.bind, Except.bind, pure, Except.pure] at h
      subst h
      rfl

/-- Witness for C10 at concrete responses: a present chain list of length 2
gives `count = 2`, and a one-candle OHLC result has matching count. -/
theorem C10_count_matches_witness :
    (getChainTVLData exC10Chains).result.count = 2 ∧
    exC10Ohlc.result.count = exC10Ohlc.result.ohlc.length := by
  constructor
  · have h := (C10_count_matches.2.1 exC10Chains).2 exC10ChainList (by decide)
    rw [h]
    decide
  · exact C10_count_matches.2.2.2 exC10OhlcInput exC10Candles exC10Ohlc (by decide)
